import Mathlib

/-!
Verification of the quiz-recommendation analytics pipeline.

The development shallowly embeds the two Python source files:
* `src/rec.py` — the console variant (namespace `Rec`): current-quiz join,
  historical accumulation, least-squares trend, recommendation rules;
* `src/app.py` — the dashboard variant (namespace `App`): degrade-gracefully
  processing and insight/recommendation generation.

JSON payloads are modelled as structures whose optional top-level keys are
`Option` fields; pandas data frames are lists of typed rows; the pandas inner
merge is the flat map pairing each left row with its matching right rows;
`defaultdict` accumulation is an association list updated in place.  String
formatting is presentation only, so recommendation and insight entries are
kept as tagged constructors carrying the interpolated data.
-/

/-- The index of `Series.value_counts()`: the distinct values (first
appearance order) sorted stably by descending count. -/
def valueCountsIndex (l : List String) : List String :=
  l.dedup.mergeSort fun a b => decide (l.count b ≤ l.count a)

namespace Rec

/-- A question record of the current quiz payload (`quiz_data['questions']`). -/
structure Question where
  id : String
  topic : String
  difficulty : String
  correctOptionId : Nat
  timeSpent : Nat
deriving DecidableEq, Repr

/-- A submission record (`submission_data['submission']`). -/
structure SubmissionEntry where
  questionId : String
  selectedOptionId : Nat
deriving DecidableEq, Repr

/-- The current-quiz payload; the `questions` key may be absent. -/
structure QuizData where
  questions : Option (List Question)

/-- The submission payload; the `submission` key may be absent. -/
structure SubmissionData where
  submission : Option (List SubmissionEntry)

/-- One row of the merged analysis data frame, with the derived `correct`. -/
structure AnalysisRow where
  id : String
  topic : String
  difficulty : String
  correctOptionId : Nat
  questionId : String
  selectedOptionId : Nat
  correct : Bool
deriving DecidableEq, Repr

/-- `analyze_current_quiz` of `src/rec.py`: validates the required top-level
keys and inner-joins questions to submission entries on
`id = questionId`, deriving `correct = (correctOptionId == selectedOptionId)`.
The pandas merge pairs each question with every matching submission row.
A frame built from an empty list has no columns, so when either list is
empty the merge raises `KeyError` for its join column (`'id'` resp.
`'questionId'`); with both lists non-empty every column a typed record
supplies is present and the merge succeeds. -/
def analyze_current_quiz (quiz_data : QuizData) (submission_data : SubmissionData) :
    Except String (List AnalysisRow) :=
  match quiz_data.questions, submission_data.submission with
  | some questions, some submission =>
      if questions.isEmpty || submission.isEmpty then
        .error "KeyError: merge column 'id' or 'questionId' absent from an empty frame"
      else
        .ok (questions.flatMap fun q =>
          (submission.filter fun s => s.questionId == q.id).map fun s =>
            { id := q.id, topic := q.topic, difficulty := q.difficulty,
              correctOptionId := q.correctOptionId,
              questionId := s.questionId, selectedOptionId := s.selectedOptionId,
              correct := q.correctOptionId == s.selectedOptionId })
  | _, _ =>
      .error "The required keys 'questions' or 'submission' are missing in the data."

/-- A question embedded in a historical attempt's `questions` list. -/
structure HQuestion where
  id : String
  topic : String
  difficulty : String
  correctOptionId : Nat
  timeSpent : Nat
deriving DecidableEq, Repr

/-- One historical quiz attempt.  `date` and `score` are `Option` fields:
a pandas column exists exactly when at least one record supplies the key. -/
structure HistQuiz where
  date : Option Int
  score : Option ℚ
  responseMap : List (String × Nat)
  questions : List HQuestion
deriving DecidableEq, Repr

/-- The historical payload; the `quizzes` key may be absent. -/
structure HistoricalData where
  quizzes : Option (List HistQuiz)

/-- One answered question resolved against its attempt's embedded question
list, carrying exactly the fields the accumulation loop reads. -/
structure Event where
  topic : String
  difficulty : String
  correct : Bool
  time_spent : Nat
deriving DecidableEq, Repr

/-- The body of the `for question_id, selected_option in row['responseMap']`
loop: resolve each response against the attempt's question list with
`next((q for q in row['questions'] if q['id'] == question_id), None)`;
unresolved responses are skipped. -/
def resolveResponses (q : HistQuiz) : List Event :=
  q.responseMap.filterMap fun r =>
    (q.questions.find? fun qu => qu.id == r.1).map fun qu =>
      { topic := qu.topic, difficulty := qu.difficulty,
        correct := qu.correctOptionId == r.2, time_spent := qu.timeSpent }

/-- All accumulated (topic, difficulty, correct, time) events, in the order
the two nested loops of `analyze_historical_data` visit them. -/
def events (quizzes : List HistQuiz) : List Event :=
  quizzes.flatMap resolveResponses

/-- The per-key accumulator `{'correct': 0, 'total': 0, 'time_spent': 0}`. -/
structure Perf where
  correct : Nat
  total : Nat
  time_spent : Nat
deriving DecidableEq, Repr

/-- One `defaultdict` accumulation step: bump the entry for `key` in place,
or append a fresh entry initialised from the default and then bumped. -/
def bump (m : List (String × Perf)) (key : String) (c : Bool) (t : Nat) :
    List (String × Perf) :=
  match m with
  | [] => [(key, ⟨if c then 1 else 0, 1, t⟩)]
  | (k, p) :: rest =>
    if k = key then
      (k, ⟨p.correct + (if c then 1 else 0), p.total + 1, p.time_spent + t⟩) :: rest
    else
      (k, p) :: bump rest key c t

/-- Accumulate every event into the performance map keyed by `f`. -/
def perfFold (f : Event → String) (es : List Event) : List (String × Perf) :=
  es.foldl (fun m e => bump m (f e) e.correct e.time_spent) []

/-- `topic_performance` after the accumulation loops. -/
def topic_performance (quizzes : List HistQuiz) : List (String × Perf) :=
  perfFold Event.topic (events quizzes)

/-- `difficulty_performance` after the accumulation loops. -/
def difficulty_performance (quizzes : List HistQuiz) : List (String × Perf) :=
  perfFold Event.difficulty (events quizzes)

/-- `topic_accuracy = {topic: data['correct'] / data['total'] ...}`. -/
def topic_accuracy (quizzes : List HistQuiz) : List (String × ℚ) :=
  (topic_performance quizzes).map fun e => (e.1, (e.2.correct : ℚ) / (e.2.total : ℚ))

/-- `difficulty_accuracy = {diff: data['correct'] / data['total'] ...}`. -/
def difficulty_accuracy (quizzes : List HistQuiz) : List (String × ℚ) :=
  (difficulty_performance quizzes).map fun e => (e.1, (e.2.correct : ℚ) / (e.2.total : ℚ))

/-- `historical_df['score'].mean()`: pandas means skip missing values. -/
def avgScore (quizzes : List HistQuiz) : ℚ :=
  let scores := quizzes.filterMap HistQuiz.score
  scores.sum / (scores.length : ℚ)

/-- `analyze_historical_data` of `src/rec.py`: raises when `quizzes` is
absent, or when the `date` or `score` column is absent from the data frame
(a column exists iff some record supplies the key); otherwise returns the
average score, the two accuracy maps and the attempt list. -/
def analyze_historical_data (historical_data : HistoricalData) :
    Except String (ℚ × List (String × ℚ) × List (String × ℚ) × List HistQuiz) :=
  match historical_data.quizzes with
  | none => .error "The required key 'quizzes' is missing in historical data."
  | some quizzes =>
    if (quizzes.any fun q => q.date.isSome) && (quizzes.any fun q => q.score.isSome) then
      .ok (avgScore quizzes, topic_accuracy quizzes, difficulty_accuracy quizzes, quizzes)
    else
      .error "Historical data is missing 'date' or 'score' keys."

/-- The least-squares slope of `y` against `x` fitted by
`LinearRegression().fit(X, y)` on the point list `pts = (x, y)*`
(the closed form of the single-variable fit `model.coef_[0]`). -/
def lsSlope (pts : List (ℚ × ℚ)) : ℚ :=
  let n : ℚ := (pts.length : ℚ)
  let xbar := (pts.map Prod.fst).sum / n
  let ybar := (pts.map Prod.snd).sum / n
  ((pts.map fun p => (p.1 - xbar) * (p.2 - ybar)).sum) /
    ((pts.map fun p => (p.1 - xbar) ^ 2).sum)

/-- Lines 81–85 of `src/rec.py`: fit score against `days_ago` and read the
trend off the sign of the coefficient,
`trend = "improving" if model.coef_[0] > 0 else "declining"`. -/
def trendOf (pts : List (ℚ × ℚ)) : String :=
  if lsSlope pts > 0 then "improving" else "declining"

/-- The regression points `(days_ago, score)` of `historical_df`, with
`days_ago = (datetime.now() - date).days` taken relative to `now`.  This
models the complete-rows case only: on an attempt with a missing `date` or
`score` the real pipeline carries `NaN` into the fit and
`LinearRegression.fit` raises `ValueError`, a path not modelled here (the
validation in `analyze_historical_data` guarantees the columns exist but
not that every row is complete). -/
def regressionPoints (now : Int) (quizzes : List HistQuiz) : List (ℚ × ℚ) :=
  quizzes.filterMap fun q =>
    match q.date, q.score with
    | some d, some s => some (((now - d : Int) : ℚ), s)
    | _, _ => none

/-- `current_analysis['correct'].mean() * 100`. -/
def currentScore (rows : List AnalysisRow) : ℚ :=
  ((rows.countP fun r => r.correct : Nat) : ℚ) / ((rows.length : Nat) : ℚ) * 100

/-- `current_analysis[~correct]['topic'].value_counts().index.tolist()`. -/
def weakAreas (rows : List AnalysisRow) : List String :=
  valueCountsIndex ((rows.filter fun r => !r.correct).map fun r => r.topic)

/-- `current_analysis.groupby('difficulty')['correct'].mean()`: group keys in
sorted order, value = mean of `correct` within the group. -/
def currentDifficultyPerformance (rows : List AnalysisRow) : List (String × ℚ) :=
  (((rows.map fun r => r.difficulty).dedup).mergeSort fun a b => decide (a ≤ b)).map
    fun d =>
      let grp := rows.filter fun r => r.difficulty == d
      (d, ((grp.countP fun r => r.correct : Nat) : ℚ) / ((grp.length : Nat) : ℚ))

/-- The insight record assembled by `generate_insights`. -/
structure Insights where
  current_score : ℚ
  average_score : ℚ
  weak_areas : List String
  topic_accuracy : List (String × ℚ)
  difficulty_accuracy : List (String × ℚ)
  current_difficulty_performance : List (String × ℚ)
  performance_trend : String
deriving DecidableEq, Repr

/-- `generate_insights` of `src/rec.py` (`now` fixes `datetime.now()`). -/
def generate_insights (current_analysis : List AnalysisRow) (avg_score : ℚ)
    (ta da : List (String × ℚ)) (historical_df : List HistQuiz) (now : Int) : Insights :=
  { current_score := currentScore current_analysis
    average_score := avg_score * 100
    weak_areas := weakAreas current_analysis
    topic_accuracy := ta
    difficulty_accuracy := da
    current_difficulty_performance := currentDifficultyPerformance current_analysis
    performance_trend := trendOf (regressionPoints now historical_df) }

/-- A recommendation string, kept as a tagged constructor carrying the data
interpolated into the f-string (formatting is presentation only). -/
inductive Recommendation where
  | regression
  | weakTopic (topic : String)
  | lowAccuracy (topic : String) (accuracy : ℚ)
  | diffDrop (difficulty : String)
  | trendRemark (trend : String)
deriving DecidableEq, Repr

/-- Rule 1: `if insights['current_score'] < insights['average_score']`. -/
def regressionRecs (i : Insights) : List Recommendation :=
  if i.current_score < i.average_score then [.regression] else []

/-- Rule 2: `for topic in insights['weak_areas'][:3]`. -/
def weakTopicRecs (i : Insights) : List Recommendation :=
  (i.weak_areas.take 3).map .weakTopic

/-- Rule 3: `sorted(insights['topic_accuracy'].items(), key=lambda x: x[1])[:3]`
(Python's `sorted` is stable and ascending). -/
def lowAccuracyRecs (i : Insights) : List Recommendation :=
  ((i.topic_accuracy.mergeSort fun a b => decide (a.2 ≤ b.2)).take 3).map
    fun e => .lowAccuracy e.1 e.2

/-- Body of the rule-4 loop: a remark when the level is present in both
series (`difficulty in current_performance and difficulty in
historical_performance`) and the current performance is strictly below the
historical accuracy. -/
def diffDropFor (i : Insights) (d : String) : List Recommendation :=
  match i.current_difficulty_performance.lookup d, i.difficulty_accuracy.lookup d with
  | some c, some h => if c < h then [.diffDrop d] else []
  | _, _ => []

/-- Rule 4: the loop over the literal list `['easy', 'medium', 'hard']`. -/
def diffDropRecs (i : Insights) : List Recommendation :=
  (["easy", "medium", "hard"]).flatMap (diffDropFor i)

/-- Rule 5: the unconditional trend-based closing remark. -/
def trendRecs (i : Insights) : List Recommendation :=
  [.trendRemark i.performance_trend]

/-- `create_recommendations` of `src/rec.py`: the five rules applied in
order, each appending its remarks to the list. -/
def create_recommendations (i : Insights) : List Recommendation :=
  regressionRecs i ++ weakTopicRecs i ++ lowAccuracyRecs i ++ diffDropRecs i ++ trendRecs i

end Rec

namespace App

/-- A record of the dashboard quiz payload's `questions` list; the two
answer keys are `Option` fields so that absent columns are representable. -/
structure AQuestion where
  topic : String
  difficulty : ℚ
  time_taken : ℚ
  correct_answer : Option Nat
  selected_option : Option Nat
deriving DecidableEq, Repr

/-- The dashboard current-quiz payload; `data.get('questions', [])` defaults
an absent key to the empty list. -/
structure AppQuizData where
  questions : Option (List AQuestion)

/-- A processed current-quiz row: the question plus the derived `correct`. -/
structure ARow where
  topic : String
  difficulty : ℚ
  time_taken : ℚ
  correct : Bool
deriving DecidableEq, Repr

/-- The `try` body of `process_current_quiz`: early-return an empty frame
when `questions` is empty; otherwise derive
`df['correct'] = df['correct_answer'] == df['selected_option']`, which
raises `KeyError` when either column is absent (no record supplies the key);
a present column compares as unequal on rows whose value is missing. -/
def processCurrentQuizBody (questions : List AQuestion) : Except String (List ARow) :=
  if questions.isEmpty then
    .ok []
  else if (questions.any fun q => q.correct_answer.isSome) &&
          (questions.any fun q => q.selected_option.isSome) then
    .ok (questions.map fun q =>
      { topic := q.topic, difficulty := q.difficulty, time_taken := q.time_taken,
        correct := match q.correct_answer, q.selected_option with
          | some a, some b => a == b
          | _, _ => false })
  else
    .error "KeyError"

/-- `process_current_quiz` of `src/app.py`: every exception is caught and
reported, and the function falls back to an empty data frame. -/
def process_current_quiz (data : AppQuizData) : List ARow :=
  match processCurrentQuizBody (data.questions.getD []) with
  | .ok rows => rows
  | .error _ => []

/-- One attempt of the dashboard historical payload. -/
structure AQuizRaw where
  quiz_id : Nat
  score : ℚ
  total_questions : Nat
  response_map : List (String × Nat)
deriving DecidableEq, Repr

/-- The dashboard historical payload; the `quizzes` key may be absent. -/
structure AppHistData where
  quizzes : Option (List AQuizRaw)

/-- One row of the processed historical frame. -/
structure AHistRow where
  quiz_id : Nat
  score : ℚ
  total_questions : Nat
  correct_answers : Nat
deriving DecidableEq, Repr

/-- `process_historical_quizzes` of `src/app.py`: warn and return an empty
frame when `quizzes` is absent; otherwise one row per attempt with
`correct_answers = sum(1 for v in quiz['response_map'].values() if v == 1)`. -/
def process_historical_quizzes (data : AppHistData) : List AHistRow :=
  match data.quizzes with
  | none => []
  | some quizzes => quizzes.map fun q =>
      { quiz_id := q.quiz_id, score := q.score, total_questions := q.total_questions,
        correct_answers := q.response_map.countP fun r => r.2 == 1 }

/-- A dashboard insight line, as a tagged constructor carrying the data
interpolated into the displayed string. -/
inductive Insight where
  | weakAreas (topics : List String)
  | currentAccuracy (accuracy : ℚ)
  | averageScore (score : ℚ)
  | trendDirection (direction : String)
deriving DecidableEq, Repr

/-- `score.diff().mean()`: mean of consecutive differences (the leading
`NaN` is skipped by the mean). -/
def diffMean (scores : List ℚ) : ℚ :=
  let ds := (scores.tail.zip scores).map fun p => p.1 - p.2
  ds.sum / (ds.length : ℚ)

/-- `generate_insights` of `src/app.py`: the current-quiz block runs only on
a non-empty current frame, the historical block only on a non-empty
historical frame. -/
def generate_insights (current_quiz : List ARow) (historical_quizzes : List AHistRow) :
    List Insight :=
  (if current_quiz.isEmpty then [] else
    [ .weakAreas ((valueCountsIndex ((current_quiz.filter fun r => !r.correct).map
        fun r => r.topic)).take 3),
      .currentAccuracy (((current_quiz.countP fun r => r.correct : Nat) : ℚ) /
        ((current_quiz.length : Nat) : ℚ) * 100) ])
  ++
  (if historical_quizzes.isEmpty then [] else
    [ .averageScore (((historical_quizzes.map fun r => r.score).sum) /
        ((historical_quizzes.length : Nat) : ℚ)),
      .trendDirection (if diffMean (historical_quizzes.map fun r => r.score) > 0
        then "improving" else "declining") ])

/-- A dashboard recommendation line, as a tagged constructor. -/
inductive ARec where
  | focusTopics (topics : List String)
  | tryHarder
  | practiceEasier
  | timeManagement
deriving DecidableEq, Repr

/-- `generate_recommendations` of `src/app.py` (the historical frame is a
parameter of the source function but never read by its body). -/
def generate_recommendations (current_quiz : List ARow)
    (historical_quizzes : List AHistRow) : List ARec :=
  if current_quiz.isEmpty then [] else
    [ARec.focusTopics ((valueCountsIndex ((current_quiz.filter fun r => !r.correct).map
        fun r => r.topic)).take 3)]
    ++
    (let avg_difficulty := ((current_quiz.map fun r => r.difficulty).sum) /
        ((current_quiz.length : Nat) : ℚ)
     if avg_difficulty < 2 then [ARec.tryHarder]
     else if avg_difficulty > 4 then [ARec.practiceEasier]
     else [])
    ++
    (if ((current_quiz.map fun r => r.time_taken).sum) /
        ((current_quiz.length : Nat) : ℚ) > 90 then [ARec.timeManagement] else [])

/-- Everything `main` of `src/app.py` renders: the insight lines, the
recommendation lines, and the performance-trend chart (quiz id vs. score,
drawn only for a non-empty historical frame).  The submission payload is the
second fetched value; `σ` leaves its shape fully general. -/
def renderDashboard {σ : Type} (current_quiz_data : AppQuizData)
    (current_quiz_submission : σ) (historical_data : AppHistData) :
    List Insight × List ARec × Option (List (Nat × ℚ)) :=
  let current_quiz := process_current_quiz current_quiz_data
  let historical_quizzes := process_historical_quizzes historical_data
  (generate_insights current_quiz historical_quizzes,
   generate_recommendations current_quiz historical_quizzes,
   if historical_quizzes.isEmpty then none
   else some (historical_quizzes.map fun r => (r.quiz_id, r.score)))

end App

/-! ## Helper lemmas -/

lemma sum_map_ite_eq_countP {α : Type} (l : List α) (p : α → Bool) :
    (l.map fun a => if p a then 1 else 0).sum = l.countP p := by
  induction l with
  | nil => simp
  | cons a l ih => by_cases h : p a <;> simp [List.countP_cons, h, ih, Nat.add_comm]

lemma length_filter_eq_ite_any {α β : Type} [BEq β] [LawfulBEq β]
    (l : List α) (f : α → β) (hl : (l.map f).Nodup) (v : β) :
    (l.filter fun s => f s == v).length = if l.any fun s => f s == v then 1 else 0 := by
  induction l with
  | nil => simp
  | cons a l ih =>
    simp only [List.map_cons, List.nodup_cons] at hl
    by_cases h : f a == v
    · have hv : f a = v := by simpa using h
      have : ∀ s ∈ l, ¬(f s == v) := by
        intro s hs hsv
        exact hl.1 (by rw [hv, ← (by simpa using hsv : f s = v)]; exact List.mem_map_of_mem f hs)
      simp [List.filter_cons, h, List.any_cons, List.filter_eq_nil_iff.mpr this]
    · rw [Bool.not_eq_true] at h
      rw [List.any_cons, h, Bool.false_or, List.filter_cons]
      simp [h, ih hl.2]

/-! ## C2: derived `correct` field of the current-quiz analysis -/

/-- C2: for every row of the current-quiz analysis produced by
`analyze_current_quiz`, the derived boolean `correct` is true iff the row's
`correctOptionId` equals its `selectedOptionId`. -/
theorem current_quiz_correct_iff (qd : Rec.QuizData) (sd : Rec.SubmissionData)
    (rows : List Rec.AnalysisRow)
    (hrows : Rec.analyze_current_quiz qd sd = .ok rows)
    (r : Rec.AnalysisRow) (hr : r ∈ rows) :
    r.correct = true ↔ r.correctOptionId = r.selectedOptionId := by
  unfold Rec.analyze_current_quiz at hrows
  cases hq : qd.questions with
  | none => rw [hq] at hrows; cases sd.submission <;> simp at hrows
  | some questions =>
    cases hs : sd.submission with
    | none => rw [hq, hs] at hrows; simp at hrows
    | some submission =>
      rw [hq, hs] at hrows
      dsimp only at hrows
      by_cases he : (questions.isEmpty || submission.isEmpty) = true
      · rw [if_pos he] at hrows
        exact absurd hrows (by simp)
      · rw [if_neg he] at hrows
        simp only [Except.ok.injEq] at hrows
        subst hrows
        simp only [List.mem_flatMap, List.mem_map, List.mem_filter] at hr
        obtain ⟨q, _, s, _, rfl⟩ := hr
        simp [beq_iff_eq]

/-- Concrete instantiation of `current_quiz_correct_iff`. -/
theorem current_quiz_correct_iff_witness :
    ((⟨"q1", "algebra", "easy", 2, "q1", 2, true⟩ : Rec.AnalysisRow).correct = true ↔
      (⟨"q1", "algebra", "easy", 2, "q1", 2, true⟩ : Rec.AnalysisRow).correctOptionId =
        (⟨"q1", "algebra", "easy", 2, "q1", 2, true⟩ : Rec.AnalysisRow).selectedOptionId) :=
  current_quiz_correct_iff ⟨some [⟨"q1", "algebra", "easy", 2, 10⟩]⟩
    ⟨some [⟨"q1", 2⟩]⟩ [⟨"q1", "algebra", "easy", 2, "q1", 2, true⟩]
    rfl ⟨"q1", "algebra", "easy", 2, "q1", 2, true⟩ (by decide)

/-! ## C3: inner-join cardinality of the current-quiz analysis -/

/-- C3: for a well-formed payload (each question answered at most once in
the submission), the analysis has exactly one row per question whose
identifier appears among the submission entries. -/
theorem current_quiz_row_count (questions : List Rec.Question)
    (submission : List Rec.SubmissionEntry)
    (hnodup : (submission.map fun s => s.questionId).Nodup)
    (rows : List Rec.AnalysisRow)
    (hrows : Rec.analyze_current_quiz ⟨some questions⟩ ⟨some submission⟩ = .ok rows) :
    rows.length = questions.countP fun q => submission.any fun s => s.questionId == q.id := by
  unfold Rec.analyze_current_quiz at hrows
  dsimp only at hrows
  by_cases he : (questions.isEmpty || submission.isEmpty) = true
  · rw [if_pos he] at hrows
    exact absurd hrows (by simp)
  · rw [if_neg he] at hrows
    simp only [Except.ok.injEq] at hrows
    subst hrows
    rw [List.length_flatMap, ← sum_map_ite_eq_countP]
    congr 1
    apply List.map_congr_left
    intro q _
    simp only [Function.comp_apply, List.length_map]
    exact length_filter_eq_ite_any submission (fun s => s.questionId) hnodup q.id

/-- Concrete instantiation of `current_quiz_row_count`: three questions, two
of them answered, one unmatched submission entry — two analysis rows. -/
theorem current_quiz_row_count_witness :
    ([(⟨"q1", "algebra", "easy", 2, "q1", 2, true⟩ : Rec.AnalysisRow),
      ⟨"q2", "geometry", "hard", 1, "q2", 3, false⟩].length =
      [(⟨"q1", "algebra", "easy", 2, 10⟩ : Rec.Question),
       ⟨"q2", "geometry", "hard", 1, 20⟩,
       ⟨"q3", "algebra", "medium", 3, 5⟩].countP
        fun q => [(⟨"q1", 2⟩ : Rec.SubmissionEntry), ⟨"q2", 3⟩, ⟨"q9", 1⟩].any
          fun s => s.questionId == q.id) :=
  current_quiz_row_count
    [⟨"q1", "algebra", "easy", 2, 10⟩, ⟨"q2", "geometry", "hard", 1, 20⟩,
     ⟨"q3", "algebra", "medium", 3, 5⟩]
    [⟨"q1", 2⟩, ⟨"q2", 3⟩, ⟨"q9", 1⟩]
    (by decide)
    [⟨"q1", "algebra", "easy", 2, "q1", 2, true⟩,
     ⟨"q2", "geometry", "hard", 1, "q2", 3, false⟩]
    rfl

/-! ## C1: trend direction of an improving historical series -/

/-- The spec's example series: scores 60, 70, 80 attempted 10, 5 and 1 days
ago — a strictly improving series (`now = 100`, dates 90, 95, 99). -/
def exHistQuizzes : List Rec.HistQuiz :=
  [⟨some 90, some 60, [], []⟩, ⟨some 95, some 70, [], []⟩, ⟨some 99, some 80, [], []⟩]

/-- C1 evaluated on the code: for the strictly improving example series
(scores [60, 70, 80] at days-ago [10, 5, 1]) the fitted slope of score
against days-ago is negative (−135/61), so `generate_insights` reports the
trend "declining", not "improving" as the spec claims; the average score is
70 as claimed.  The code regresses score on days-since-attempt, which flips
the sign of the trend relative to calendar time. -/
theorem improving_series_labelled_declining :
    Rec.regressionPoints 100 exHistQuizzes = [(10, 60), (5, 70), (1, 80)] ∧
    Rec.lsSlope [(10, 60), (5, 70), (1, 80)] = -135 / 61 ∧
    Rec.lsSlope [(10, 60), (5, 70), (1, 80)] < 0 ∧
    (Rec.generate_insights [] (Rec.avgScore exHistQuizzes) [] [] exHistQuizzes
        100).performance_trend = "declining" ∧
    Rec.avgScore exHistQuizzes = 70 := by
  refine ⟨rfl, ?_, ?_, ?_, ?_⟩
  · norm_num [Rec.lsSlope, List.sum_cons]
  · norm_num [Rec.lsSlope, List.sum_cons]
  · show Rec.trendOf (Rec.regressionPoints 100 exHistQuizzes) = "declining"
    rw [Rec.trendOf, if_neg]
    rw [show Rec.regressionPoints 100 exHistQuizzes = [(10, 60), (5, 70), (1, 80)] from rfl]
    norm_num [Rec.lsSlope, List.sum_cons]
  · norm_num [Rec.avgScore, exHistQuizzes, List.filterMap_cons, List.sum_cons]

/-! ## C4: shape and order of the recommendation list -/

lemma diffDropFor_length_le (i : Rec.Insights) (d : String) :
    (Rec.diffDropFor i d).length ≤ 1 := by
  unfold Rec.diffDropFor
  rcases i.current_difficulty_performance.lookup d with _ | c <;>
    rcases i.difficulty_accuracy.lookup d with _ | h <;> simp
  split <;> simp

lemma diffDropFor_shape (i : Rec.Insights) (d : String) :
    ∀ r ∈ Rec.diffDropFor i d, r = .diffDrop d := by
  unfold Rec.diffDropFor
  rcases i.current_difficulty_performance.lookup d with _ | c <;>
    rcases i.difficulty_accuracy.lookup d with _ | h <;> intro r hr <;> simp at hr
  exact hr.2

/-- C4: `create_recommendations` is the concatenation of the five rule
blocks in their fixed order; the blocks contribute at most 1, 3, 3 and 3
entries of their respective categories, the trend block is exactly the one
trend remark, the whole list has at most 11 entries, and its last entry is
always the trend remark. -/
theorem recommendations_shape (i : Rec.Insights) :
    Rec.create_recommendations i =
      Rec.regressionRecs i ++ Rec.weakTopicRecs i ++ Rec.lowAccuracyRecs i ++
        Rec.diffDropRecs i ++ Rec.trendRecs i ∧
    (Rec.regressionRecs i).length ≤ 1 ∧
    (∀ r ∈ Rec.regressionRecs i, r = .regression) ∧
    (Rec.weakTopicRecs i).length ≤ 3 ∧
    (∀ r ∈ Rec.weakTopicRecs i, ∃ t, r = .weakTopic t) ∧
    (Rec.lowAccuracyRecs i).length ≤ 3 ∧
    (∀ r ∈ Rec.lowAccuracyRecs i, ∃ t a, r = .lowAccuracy t a) ∧
    (Rec.diffDropRecs i).length ≤ 3 ∧
    (∀ r ∈ Rec.diffDropRecs i, ∃ d, r = .diffDrop d) ∧
    Rec.trendRecs i = [.trendRemark i.performance_trend] ∧
    (Rec.create_recommendations i).length ≤ 11 ∧
    (Rec.create_recommendations i).getLast? = some (.trendRemark i.performance_trend) := by
  have hreg : (Rec.regressionRecs i).length ≤ 1 := by
    unfold Rec.regressionRecs; split <;> simp
  have hweak : (Rec.weakTopicRecs i).length ≤ 3 := by
    unfold Rec.weakTopicRecs
    simp
  have hlow : (Rec.lowAccuracyRecs i).length ≤ 3 := by
    unfold Rec.lowAccuracyRecs
    simp
  have hdrop : (Rec.diffDropRecs i).length ≤ 3 := by
    unfold Rec.diffDropRecs
    simp only [List.flatMap_cons, List.flatMap_nil, List.append_nil, List.length_append]
    have h1 := diffDropFor_length_le i "easy"
    have h2 := diffDropFor_length_le i "medium"
    have h3 := diffDropFor_length_le i "hard"
    omega
  refine ⟨rfl, hreg, ?_, hweak, ?_, hlow, ?_, hdrop, ?_, rfl, ?_, ?_⟩
  · unfold Rec.regressionRecs
    split <;> simp
  · unfold Rec.weakTopicRecs
    intro r hr
    simp only [List.mem_map] at hr
    obtain ⟨t, _, rfl⟩ := hr
    exact ⟨t, rfl⟩
  · unfold Rec.lowAccuracyRecs
    intro r hr
    simp only [List.mem_map] at hr
    obtain ⟨e, _, rfl⟩ := hr
    exact ⟨e.1, e.2, rfl⟩
  · unfold Rec.diffDropRecs
    intro r hr
    simp only [List.mem_flatMap] at hr
    obtain ⟨d, _, hrd⟩ := hr
    exact ⟨d, diffDropFor_shape i d r hrd⟩
  · unfold Rec.create_recommendations
    simp only [List.length_append, Rec.trendRecs, List.length_singleton]
    omega
  · unfold Rec.create_recommendations Rec.trendRecs
    rw [show Rec.regressionRecs i ++ Rec.weakTopicRecs i ++ Rec.lowAccuracyRecs i ++
          Rec.diffDropRecs i ++ [Rec.Recommendation.trendRemark i.performance_trend] =
        (Rec.regressionRecs i ++ Rec.weakTopicRecs i ++ Rec.lowAccuracyRecs i ++
          Rec.diffDropRecs i) ++ [Rec.Recommendation.trendRemark i.performance_trend] by
      simp [List.append_assoc]]
    exact List.getLast?_concat _

/-- Concrete instantiation of `recommendations_shape`: the last entry of the
recommendation list is the trend remark. -/
theorem recommendations_shape_witness :
    (Rec.create_recommendations
        ⟨50, 40, [], [], [("expert", 9 / 10)], [("expert", 1 / 2)], "improving"⟩).getLast? =
      some (.trendRemark "improving") :=
  (recommendations_shape
    ⟨50, 40, [], [], [("expert", 9 / 10)], [("expert", 1 / 2)], "improving"⟩).2.2.2.2.2.2.2.2.2.2.2

/-! ## C6: difficulty-drop suggestions cover only easy/medium/hard -/

/-- An insight record whose only difficulty level, "expert", is present in
both the current and the historical per-difficulty series with a strict
performance drop (1/2 < 9/10). -/
def exInsightsExpert : Rec.Insights :=
  { current_score := 50, average_score := 40, weak_areas := [],
    topic_accuracy := [], difficulty_accuracy := [("expert", 9 / 10)],
    current_difficulty_performance := [("expert", 1 / 2)],
    performance_trend := "improving" }

/-- C6 refuted: "expert" is present in both per-difficulty series of
`exInsightsExpert` with current accuracy strictly below historical, yet
`create_recommendations` emits no focus suggestion for it (the rule-4 loop
iterates only over the literal levels easy, medium and hard). -/
theorem diff_drop_expert_missing :
    exInsightsExpert.current_difficulty_performance.lookup "expert" = some (1 / 2) ∧
    exInsightsExpert.difficulty_accuracy.lookup "expert" = some (9 / 10) ∧
    ((1 : ℚ) / 2 < 9 / 10) ∧
    Rec.Recommendation.diffDrop "expert" ∉ Rec.create_recommendations exInsightsExpert := by
  refine ⟨rfl, rfl, by norm_num, ?_⟩
  have : Rec.create_recommendations exInsightsExpert = [.trendRemark "improving"] := by
    unfold Rec.create_recommendations Rec.regressionRecs Rec.weakTopicRecs
      Rec.lowAccuracyRecs Rec.diffDropRecs Rec.diffDropFor Rec.trendRecs exInsightsExpert
    norm_num [List.lookup]
    rfl
  rw [this]
  simp

/-- C6 amended: for each difficulty level among easy, medium and hard that
is present in both the current and the historical per-difficulty series
with current accuracy strictly below historical, `create_recommendations`
contains the focus suggestion for that level. -/
theorem diff_drop_easy_medium_hard (i : Rec.Insights) (d : String)
    (hd : d ∈ (["easy", "medium", "hard"] : List String)) (c h : ℚ)
    (hc : i.current_difficulty_performance.lookup d = some c)
    (hh : i.difficulty_accuracy.lookup d = some h) (hlt : c < h) :
    Rec.Recommendation.diffDrop d ∈ Rec.create_recommendations i := by
  have hmem : Rec.Recommendation.diffDrop d ∈ Rec.diffDropRecs i := by
    unfold Rec.diffDropRecs
    rw [List.mem_flatMap]
    refine ⟨d, hd, ?_⟩
    unfold Rec.diffDropFor
    rw [hc, hh]
    simp [hlt]
  unfold Rec.create_recommendations
  simp [List.mem_append, hmem]

/-- Concrete instantiation of `diff_drop_easy_medium_hard`: a drop on the
"easy" level yields the corresponding suggestion. -/
theorem diff_drop_easy_medium_hard_witness :
    Rec.Recommendation.diffDrop "easy" ∈ Rec.create_recommendations
      ⟨50, 40, [], [], [("easy", 9 / 10)], [("easy", 1 / 2)], "improving"⟩ :=
  diff_drop_easy_medium_hard
    ⟨50, 40, [], [], [("easy", 9 / 10)], [("easy", 1 / 2)], "improving"⟩
    "easy" (by decide) (1 / 2) (9 / 10) rfl rfl (by norm_num)

/-! ## Invariants of the defaultdict accumulation (C5, C7) -/

/-- `bump` preserves the per-entry invariant `correct ≤ total ∧ 1 ≤ total`. -/
lemma bump_entry_inv (m : List (String × Rec.Perf)) (k : String) (c : Bool) (t : Nat)
    (hm : ∀ e ∈ m, e.2.correct ≤ e.2.total ∧ 1 ≤ e.2.total) :
    ∀ e ∈ Rec.bump m k c t, e.2.correct ≤ e.2.total ∧ 1 ≤ e.2.total := by
  induction m with
  | nil =>
    intro e he
    simp only [Rec.bump, List.mem_singleton] at he
    subst he
    cases c <;> simp
  | cons a m ih =>
    obtain ⟨k', p⟩ := a
    intro e he
    rw [Rec.bump] at he
    by_cases hk : k' = k
    · rw [if_pos hk] at he
      rcases List.mem_cons.mp he with rfl | hmem
      · have := hm (k', p) (List.mem_cons_self _ _)
        cases c <;> simp_all <;> omega
      · exact hm e (List.mem_cons_of_mem _ hmem)
    · rw [if_neg hk] at he
      rcases List.mem_cons.mp he with rfl | hmem
      · exact hm _ (List.mem_cons_self _ _)
      · exact ih (fun x hx => hm x (List.mem_cons_of_mem _ hx)) e hmem

/-- `bump` adds exactly one to the sum of the `total` fields. -/
lemma bump_sum_total (m : List (String × Rec.Perf)) (k : String) (c : Bool) (t : Nat) :
    ((Rec.bump m k c t).map fun e => e.2.total).sum =
      ((m.map fun e => e.2.total).sum) + 1 := by
  induction m with
  | nil => simp [Rec.bump]
  | cons a m ih =>
    obtain ⟨k', p⟩ := a
    rw [Rec.bump]
    by_cases hk : k' = k
    · rw [if_pos hk]; simp; omega
    · rw [if_neg hk]; simp [ih]; omega

/-- `bump` adds the correctness indicator to the sum of `correct` fields. -/
lemma bump_sum_correct (m : List (String × Rec.Perf)) (k : String) (c : Bool) (t : Nat) :
    ((Rec.bump m k c t).map fun e => e.2.correct).sum =
      ((m.map fun e => e.2.correct).sum) + (if c then 1 else 0) := by
  induction m with
  | nil => simp [Rec.bump]
  | cons a m ih =>
    obtain ⟨k', p⟩ := a
    rw [Rec.bump]
    by_cases hk : k' = k
    · rw [if_pos hk]; simp; omega
    · rw [if_neg hk]; simp [ih]; omega

/-- The accumulation fold preserves the per-entry invariant. -/
lemma perfFold_entry_inv (f : Rec.Event → String) (es : List Rec.Event) :
    ∀ m, (∀ e ∈ m, e.2.correct ≤ e.2.total ∧ 1 ≤ e.2.total) →
      ∀ e ∈ es.foldl (fun m e => Rec.bump m (f e) e.correct e.time_spent) m,
        e.2.correct ≤ e.2.total ∧ 1 ≤ e.2.total := by
  induction es with
  | nil => intro m hm; simpa using hm
  | cons a es ih =>
    intro m hm
    exact ih _ (bump_entry_inv m (f a) a.correct a.time_spent hm)

/-- After the fold, the `total` fields sum to the number of events. -/
lemma perfFold_sum_total (f : Rec.Event → String) (es : List Rec.Event) :
    ∀ m, (((es.foldl (fun m e => Rec.bump m (f e) e.correct e.time_spent) m).map
        fun e => e.2.total).sum) = ((m.map fun e => e.2.total).sum) + es.length := by
  induction es with
  | nil => intro m; simp
  | cons a es ih =>
    intro m
    rw [List.foldl_cons, ih, bump_sum_total, List.length_cons]
    omega

/-- After the fold, the `correct` fields sum to the correct-event count. -/
lemma perfFold_sum_correct (f : Rec.Event → String) (es : List Rec.Event) :
    ∀ m, (((es.foldl (fun m e => Rec.bump m (f e) e.correct e.time_spent) m).map
        fun e => e.2.correct).sum) =
      ((m.map fun e => e.2.correct).sum) + es.countP (fun e => e.correct) := by
  induction es with
  | nil => intro m; simp
  | cons a es ih =>
    intro m
    rw [List.foldl_cons, ih, bump_sum_correct, List.countP_cons]
    by_cases h : a.correct <;> simp [h] <;> omega

/-! ## C7: every accumulated key has a positive total -/

/-- C7: every entry of the accumulated `topic_performance` and
`difficulty_performance` maps has `total ≥ 1` (a key is only created when an
answered question is accumulated into it), so the accuracy divisions never
divide by zero. -/
theorem performance_totals_positive (quizzes : List Rec.HistQuiz) :
    (∀ e ∈ Rec.topic_performance quizzes, 1 ≤ e.2.total) ∧
    (∀ e ∈ Rec.difficulty_performance quizzes, 1 ≤ e.2.total) :=
  ⟨fun e he => (perfFold_entry_inv Rec.Event.topic (Rec.events quizzes) [] (by simp) e he).2,
   fun e he =>
    (perfFold_entry_inv Rec.Event.difficulty (Rec.events quizzes) [] (by simp) e he).2⟩

/-- Concrete instantiation of `performance_totals_positive` on a one-event
history. -/
theorem performance_totals_positive_witness :
    1 ≤ (("algebra", (⟨1, 1, 7⟩ : Rec.Perf)) : String × Rec.Perf).2.total :=
  (performance_totals_positive
      [⟨some 90, some 60, [("q1", 2)], [⟨"q1", "algebra", "easy", 2, 7⟩]⟩]).1
    ("algebra", ⟨1, 1, 7⟩) (by decide)

/-! ## C5: per-topic accuracy bounds and the weighted average -/

/-- The average of the per-topic accuracy values, each weighted by its
topic's accumulated `total` count (the accuracy of entry `(k, p)` of
`topic_performance` is `p.correct / p.total`, the value `topic_accuracy`
stores for `k`). -/
def weightedTopicAccuracy (quizzes : List Rec.HistQuiz) : ℚ :=
  (((Rec.topic_performance quizzes).map fun e =>
      ((e.2.correct : ℚ) / (e.2.total : ℚ)) * (e.2.total : ℚ)).sum) /
    (((Rec.topic_performance quizzes).map fun e => ((e.2.total : ℚ))).sum)

/-- The overall historical accuracy: accumulated correct answers divided by
accumulated answered questions, across all attempts. -/
def overallAccuracy (quizzes : List Rec.HistQuiz) : ℚ :=
  (((Rec.events quizzes).countP fun e => e.correct : ℕ) : ℚ) /
    (((Rec.events quizzes).length : ℕ) : ℚ)

/-- C5: every per-topic accuracy lies in [0, 1], and the total-weighted
average of the per-topic accuracies equals the overall historical
accuracy. -/
theorem topic_accuracy_unit_interval_weighted_avg (quizzes : List Rec.HistQuiz) :
    (∀ p ∈ Rec.topic_accuracy quizzes, 0 ≤ p.2 ∧ p.2 ≤ 1) ∧
    weightedTopicAccuracy quizzes = overallAccuracy quizzes := by
  have hinv := perfFold_entry_inv Rec.Event.topic (Rec.events quizzes) [] (by simp)
  constructor
  · intro p hp
    simp only [Rec.topic_accuracy, List.mem_map] at hp
    obtain ⟨e, he, rfl⟩ := hp
    have h := hinv e he
    have ht : (0 : ℚ) < (e.2.total : ℚ) := by exact_mod_cast h.2
    exact ⟨div_nonneg (by positivity) (le_of_lt ht),
      (div_le_one ht).mpr (by exact_mod_cast h.1)⟩
  · have hnum : ((Rec.topic_performance quizzes).map fun e =>
        ((e.2.correct : ℚ) / (e.2.total : ℚ)) * (e.2.total : ℚ)).sum =
        ((Rec.topic_performance quizzes).map fun e => ((e.2.correct : ℕ) : ℚ)).sum := by
      apply congrArg List.sum
      apply List.map_congr_left
      intro e he
      have h := hinv e he
      have ht : ((e.2.total : ℕ) : ℚ) ≠ 0 := by
        have hpos : (0 : ℚ) < ((e.2.total : ℕ) : ℚ) := by exact_mod_cast h.2
        exact hpos.ne'
      exact div_mul_cancel₀ _ ht
    have htot : ((Rec.topic_performance quizzes).map fun e => e.2.total).sum =
        (Rec.events quizzes).length := by
      simpa [Rec.topic_performance, Rec.perfFold] using
        perfFold_sum_total Rec.Event.topic (Rec.events quizzes) []
    have hcor : ((Rec.topic_performance quizzes).map fun e => e.2.correct).sum =
        (Rec.events quizzes).countP fun e => e.correct := by
      simpa [Rec.topic_performance, Rec.perfFold] using
        perfFold_sum_correct Rec.Event.topic (Rec.events quizzes) []
    unfold weightedTopicAccuracy overallAccuracy
    rw [hnum, ← htot, ← hcor]
    simp only [Nat.cast_list_sum, List.map_map]
    rfl

/-- One attempt answering two "algebra" questions, one of them correctly. -/
def exHistC5 : List Rec.HistQuiz :=
  [⟨some 90, some 60, [("q1", 2), ("q2", 1)],
    [⟨"q1", "algebra", "easy", 2, 7⟩, ⟨"q2", "algebra", "hard", 2, 9⟩]⟩]

/-- Concrete instantiation of `topic_accuracy_unit_interval_weighted_avg`
on `exHistC5` (per-topic accuracy 1/2). -/
theorem topic_accuracy_unit_interval_weighted_avg_witness :
    (0 ≤ ((("algebra", (1 : ℚ) / 2) : String × ℚ)).2 ∧
      ((("algebra", (1 : ℚ) / 2) : String × ℚ)).2 ≤ 1) ∧
    weightedTopicAccuracy exHistC5 = overallAccuracy exHistC5 :=
  ⟨(topic_accuracy_unit_interval_weighted_avg exHistC5).1 ("algebra", (1 : ℚ) / 2)
    (by
      have hperf : Rec.topic_performance exHistC5 = [("algebra", ⟨1, 2, 16⟩)] := rfl
      unfold Rec.topic_accuracy
      rw [hperf]
      norm_num),
   (topic_accuracy_unit_interval_weighted_avg exHistC5).2⟩

/-! ## C8: graceful degradation on an empty or missing questions list -/

/-- C8: in the dashboard entry point, when the `questions` list is empty or
the key is missing, the `try` body returns the empty frame without raising,
`process_current_quiz` yields the empty analysis, and the generated insight
list contains no current-quiz insight (neither a weak-areas line nor a
current-accuracy line). -/
theorem dashboard_empty_questions (data : App.AppQuizData)
    (h : data.questions = none ∨ data.questions = some []) (hist : List App.AHistRow) :
    App.processCurrentQuizBody (data.questions.getD []) = .ok [] ∧
    App.process_current_quiz data = [] ∧
    ∀ x ∈ App.generate_insights (App.process_current_quiz data) hist,
      (∀ ts, x ≠ .weakAreas ts) ∧ ∀ a, x ≠ .currentAccuracy a := by
  have hq : data.questions.getD [] = [] := by rcases h with h | h <;> simp [h]
  have hproc : App.process_current_quiz data = [] := by
    unfold App.process_current_quiz
    rw [hq]
    rfl
  refine ⟨by rw [hq]; rfl, hproc, ?_⟩
  intro x hx
  rw [hproc] at hx
  unfold App.generate_insights at hx
  simp only [List.isEmpty_nil, if_pos, List.nil_append] at hx
  by_cases hh : hist.isEmpty
  · rw [if_pos hh] at hx
    simp at hx
  · rw [if_neg hh] at hx
    rcases List.mem_cons.mp hx with rfl | hx
    · exact ⟨fun ts => by simp, fun a => by simp⟩
    · rcases List.mem_cons.mp hx with rfl | hx
      · exact ⟨fun ts => by simp, fun a => by simp⟩
      · simp at hx

/-- Concrete instantiation of `dashboard_empty_questions`: a payload with no
`questions` key yields the empty analysis. -/
theorem dashboard_empty_questions_witness :
    App.process_current_quiz ⟨none⟩ = [] :=
  (dashboard_empty_questions ⟨none⟩ (Or.inl rfl) []).2.1

/-! ## C9: schema errors and missing required keys -/

/-- C9 refuted: with both required top-level keys present but holding empty
lists, `analyze_current_quiz` still fails — `pd.DataFrame([])` has no
columns, so the merge raises `KeyError` for its join column even though
`questions` and `submission` are present. -/
theorem schema_error_with_keys_present :
    (⟨some []⟩ : Rec.QuizData).questions ≠ none ∧
    (⟨some []⟩ : Rec.SubmissionData).submission ≠ none ∧
    ∃ msg, Rec.analyze_current_quiz ⟨some []⟩ ⟨some []⟩ = .error msg :=
  ⟨by simp, by simp, ⟨_, rfl⟩⟩

/-- C9 amended: `analyze_current_quiz` fails iff the top-level `questions`
or `submission` key is absent, or either list is empty (the merge column is
then absent from the empty frame); `analyze_historical_data` fails iff the
`quizzes` key is absent or the `date` or `score` column is absent from the
attempts (no record supplies the key).  With the required keys present,
the current-quiz lists non-empty and the historical columns populated, no
such error is raised. -/
theorem schema_error_iff_missing_or_empty (qd : Rec.QuizData) (sd : Rec.SubmissionData)
    (hd : Rec.HistoricalData) :
    ((∃ msg, Rec.analyze_current_quiz qd sd = .error msg) ↔
      qd.questions = none ∨ sd.submission = none ∨
        qd.questions = some [] ∨ sd.submission = some []) ∧
    ((∃ msg, Rec.analyze_historical_data hd = .error msg) ↔
      hd.quizzes = none ∨
        ∃ qs, hd.quizzes = some qs ∧
          ((∀ q ∈ qs, q.date = none) ∨ (∀ q ∈ qs, q.score = none))) := by
  constructor
  · unfold Rec.analyze_current_quiz
    cases hq : qd.questions with
    | none => cases hs : sd.submission <;> simp
    | some qs =>
      cases hs : sd.submission with
      | none => simp
      | some ss =>
        dsimp only
        by_cases he : (qs.isEmpty || ss.isEmpty) = true
        · rw [if_pos he]
          simp only [Bool.or_eq_true, List.isEmpty_iff] at he
          constructor
          · intro _
            rcases he with rfl | rfl
            · exact Or.inr (Or.inr (Or.inl rfl))
            · exact Or.inr (Or.inr (Or.inr rfl))
          · intro _
            exact ⟨_, rfl⟩
        · rw [if_neg he]
          simp only [Bool.or_eq_true, List.isEmpty_iff, not_or] at he
          constructor
          · rintro ⟨msg, hmsg⟩
            exact absurd hmsg (by simp)
          · rintro (h | h | h | h)
            · exact absurd h (by simp)
            · exact absurd h (by simp)
            · exact absurd (by injection h : qs = []) he.1
            · exact absurd (by injection h : ss = []) he.2
  · unfold Rec.analyze_historical_data
    cases hq : hd.quizzes with
    | none => simp
    | some qs =>
      dsimp only
      by_cases hcond : ((qs.any fun q => q.date.isSome) && (qs.any fun q => q.score.isSome))
        = true
      · rw [if_pos hcond]
        simp only [Bool.and_eq_true, List.any_eq_true] at hcond
        obtain ⟨⟨qdte, hqdte, hdte⟩, ⟨qsc, hqsc, hsc⟩⟩ := hcond
        simp only [Option.isSome_iff_exists] at hdte hsc
        obtain ⟨d, hd'⟩ := hdte
        obtain ⟨s, hs'⟩ := hsc
        constructor
        · rintro ⟨msg, hmsg⟩
          exact absurd hmsg (by simp)
        · rintro (h | ⟨qs', hqs', h | h⟩)
          · exact absurd h (by simp)
          · obtain rfl : qs = qs' := by injection hqs'
            exact absurd (h qdte hqdte) (by simp [hd'])
          · obtain rfl : qs = qs' := by injection hqs'
            exact absurd (h qsc hqsc) (by simp [hs'])
      · rw [if_neg hcond]
        simp only [Bool.and_eq_true, not_and_or, List.any_eq_true] at hcond
        constructor
        · intro _
          right
          refine ⟨qs, rfl, ?_⟩
          rcases hcond with h | h
          · left
            intro q hq'
            by_contra hne
            exact h ⟨q, hq', by simpa [Option.isSome_iff_ne_none] using hne⟩
          · right
            intro q hq'
            by_contra hne
            exact h ⟨q, hq', by simpa [Option.isSome_iff_ne_none] using hne⟩
        · intro _
          exact ⟨"Historical data is missing 'date' or 'score' keys.", rfl⟩

/-- Concrete instantiation of `schema_error_iff_missing_or_empty`: a quiz
payload without the `questions` key makes the current-quiz analyzer fail. -/
theorem schema_error_iff_missing_or_empty_witness :
    ∃ msg, Rec.analyze_current_quiz ⟨none⟩ ⟨some [⟨"q1", 2⟩]⟩ = .error msg :=
  (schema_error_iff_missing_or_empty ⟨none⟩ ⟨some [⟨"q1", 2⟩]⟩
      ⟨some [⟨some 0, some 1, [], []⟩]⟩).1.mpr (Or.inl rfl)

/-! ## C10: the dashboard output ignores the submission payload -/

/-- C10: the entire rendered dashboard output — insight lines,
recommendation lines and the trend chart — is the same for any two
submission payloads: the second fetched payload is never consumed by any
processing function. -/
theorem dashboard_independent_of_submission {σ : Type} (quiz_data : App.AppQuizData)
    (submission₁ submission₂ : σ) (historical_data : App.AppHistData) :
    App.renderDashboard quiz_data submission₁ historical_data =
      App.renderDashboard quiz_data submission₂ historical_data := rfl
